import Mathlib

/-!
Verification of the Ralph workflow-orchestration CLI.

Shallow embedding of the core of the `ralph` CLI (TypeScript, run on Bun):
the workflow orchestrator (`run`/`runWorkflow`), the stage executors
(research, validate, review, publish), the judge keyword classifiers, the
advisory lock manager, the session store, and the config-loader string
utilities (placeholder substitution, branch/worktree naming).

JavaScript strings are modelled as Lean `String` values.  `toLowerCase` is
modelled character-wise with `Char.toLower` (ASCII case mapping);
`String.prototype.includes` is modelled as list-infix containment.
-/

namespace Ralph

/-- JS `haystack.includes(needle)`: substring containment, modelled as
list-infix containment on the underlying character lists. -/
def jsIncludes (haystack needle : String) : Bool :=
  decide (needle.data <:+: haystack.data)

/-- JS `s.toLowerCase()`, modelled character-wise with `Char.toLower`
(ASCII case mapping). -/
def toLowerString (s : String) : String :=
  String.mk (s.data.map Char.toLower)

/-- JS `\s` (as used by `issueToTopicName` and `trim`), restricted to the
ASCII whitespace characters. -/
def jsWhitespace (c : Char) : Bool :=
  c = ' ' || c = '\t' || c = '\n' || c = '\r' || c = '\x0b' || c = '\x0c'

/-- Record `Issue` from `src/types.ts`: `{id, title, description}`. -/
structure Issue where
  id : String
  title : String
  description : String
deriving DecidableEq, Repr

/-- Record `StepResult` from `src/types.ts`:
`{success, message, outputFile?, sessionId?}`. -/
structure StepResult where
  success : Bool
  message : String
  outputFile : Option String := none
  sessionId : Option String := none
deriving DecidableEq, Repr

/-- Result of `runAgentCommand` (`ProcessResult` in `src/utils/process.ts`):
`{success, exitCode, stdout, stderr}` where `success` is `exitCode === 0`. -/
structure ProcessResult where
  exitCode : Int
  stdout : String
  stderr : String
deriving DecidableEq, Repr

/-- Field accessor `ProcessResult.success` (`src/utils/process.ts`): `exitCode === 0`. -/
def ProcessResult.success (r : ProcessResult) : Bool :=
  r.exitCode == 0

/-- Function `checkIfNeedsChanges` from `src/commands/validate.ts` (Validate's judge
keyword classifier over stdout). -/
def checkIfNeedsChanges (output : String) : Bool :=
  let lowerOutput := toLowerString output
  jsIncludes lowerOutput "needs changes" ||
  jsIncludes lowerOutput "requires changes" ||
  jsIncludes lowerOutput "does not meet" ||
  jsIncludes lowerOutput "problematic" ||
  jsIncludes lowerOutput "issues found" ||
  jsIncludes lowerOutput "must be fixed" ||
  jsIncludes lowerOutput "should be revised"

/-- Function `checkIfNeedsCodeChanges` from `src/commands/review.ts`.  The stdout
check; the feedback-file check runs only when stdout matched nothing.
`feedback` is the content of the review feedback file when one exists and
is readable (`none` covers both "no file" and "read failed", which the
source treats identically: it returns `false`). -/
def checkIfNeedsCodeChanges (output : String) (feedback : Option String) : Bool :=
  let lowerOutput := toLowerString output
  let outputNeedsChanges :=
    jsIncludes lowerOutput "needs changes" ||
    jsIncludes lowerOutput "requires changes" ||
    jsIncludes lowerOutput "does not meet" ||
    jsIncludes lowerOutput "critical" ||
    jsIncludes lowerOutput "must be fixed" ||
    jsIncludes lowerOutput "issues found"
  if outputNeedsChanges then
    true
  else
    match feedback with
    | some content =>
        let lowerContent := toLowerString content
        jsIncludes lowerContent "critical" ||
        jsIncludes lowerContent "must fix" ||
        jsIncludes lowerContent "blocking" ||
        jsIncludes lowerContent "needs changes"
    | none => false

/-- Function `checkImplementationComplete` from `src/commands/publish.ts`: judge
output classifier deciding whether a pull request may be created. -/
def checkImplementationComplete (output : String) : Bool :=
  let lowerOutput := toLowerString output
  jsIncludes lowerOutput "complete" ||
  jsIncludes lowerOutput "all items implemented" ||
  jsIncludes lowerOutput "ready for pr" ||
  jsIncludes lowerOutput "meets quality bar" ||
  (!jsIncludes lowerOutput "incomplete" && !jsIncludes lowerOutput "missing")

/-- Function `extractValidationFeedback` from `src/commands/validate.ts`: keeps the
first five stdout lines mentioning a feedback keyword, else falls back to
the first 500 characters of the output. -/
def extractValidationFeedback (output : String) : String :=
  let lines := output.splitOn "\n"
  let relevantLines := lines.filter (fun line =>
    jsIncludes line "issue" ||
    jsIncludes line "problem" ||
    jsIncludes line "change" ||
    jsIncludes line "fix" ||
    jsIncludes line "missing" ||
    jsIncludes line "incomplete")
  let joined := String.intercalate "\n" (relevantLines.take 5)
  if joined = "" then String.mk (output.data.take 500) else joined

/-- Record `ValidateResult` from `src/commands/validate.ts`. -/
structure ValidateResult extends StepResult where
  needsChanges : Bool
deriving DecidableEq, Repr

/-- The `validate` stage executor (`src/commands/validate.ts`), as a function
of the judge process's result.  `result` is what `runAgentCommand` returned;
the config-load/exception path (which yields `success := false`) is not part
of this value-level model. -/
def validate (result : ProcessResult) : ValidateResult :=
  let needsChanges := checkIfNeedsChanges result.stdout
  if result.success && !needsChanges then
    { success := true, needsChanges := false,
      message := "Plan validated successfully - meets quality bar" }
  else if needsChanges then
    { success := true, needsChanges := true,
      message := "Plan needs changes: " ++ extractValidationFeedback result.stdout }
  else
    { success := false, needsChanges := false,
      message := "Validation failed: " ++ result.stderr }

/-- Record `ReviewResult` from `src/commands/review.ts`. -/
structure ReviewResult extends StepResult where
  needsChanges : Bool
  feedbackFile : Option String := none
deriving DecidableEq, Repr

/-- The `review` stage executor (`src/commands/review.ts`), as a function of
the judge process's result, the feedback-file path found by the
`<id>_*.md` glob (if any), and a reader for file contents (`none` models a
read failure). -/
def review (result : ProcessResult) (feedbackFile : Option String)
    (readFile : String → Option String) : ReviewResult :=
  let needsChanges := checkIfNeedsCodeChanges result.stdout (feedbackFile.bind readFile)
  if result.success && !needsChanges then
    { success := true, needsChanges := false,
      message := "Code review passed - meets quality bar",
      feedbackFile := feedbackFile }
  else if needsChanges then
    { success := true, needsChanges := true,
      message := "Code review found issues that need to be addressed",
      feedbackFile := feedbackFile }
  else
    { success := false, needsChanges := false,
      message := "Review failed: " ++ result.stderr }

/-- The pull-request title built by `createPullRequest`
(`src/commands/publish.ts`): `[<id>] <title>`. -/
def mkPrTitle (issue : Issue) : String :=
  "[" ++ issue.id ++ "] " ++ issue.title

/-- The pull-request body built by `createPullRequest`
(`src/commands/publish.ts`). -/
def mkPrBody (issue : Issue) : String :=
  "## Issue\n\n**ID:** " ++ issue.id ++ "\n**Title:** " ++ issue.title ++
  "\n\n## Description\n\n" ++ issue.description ++
  "\n\n---\n*Automated PR created by Ralph*"

/-- The title/body pair handed to `gh pr create`. -/
structure PrRequest where
  title : String
  body : String
deriving DecidableEq, Repr

/-- Outcome of the external `gh pr create` invocation. -/
inductive PrOutcome where
  | created (url : String)
  | failed (err : String)
deriving DecidableEq, Repr

/-- The `publish` stage executor (`src/commands/publish.ts`) as a function of
its external inputs: whether `gh` resolves on PATH, the judge process's
result, and the outcome of `gh pr create`.  The second component records the
pull-request title/body actually handed to `gh pr create` (`none` when no
pull-request creation was attempted). -/
def publish (issue : Issue) (ghExists : Bool) (result : ProcessResult)
    (pr : PrOutcome) : StepResult × Option PrRequest :=
  if !ghExists then
    ({ success := false,
       message := "Error: GitHub CLI (gh) is required but not found. Please install it: https://cli.github.com/" },
     none)
  else if !result.success then
    ({ success := false,
       message := "Publish verification failed: " ++ result.stderr }, none)
  else if !checkImplementationComplete result.stdout then
    ({ success := false,
       message := "Implementation incomplete. Cannot create PR until all plan items are implemented." },
     none)
  else
    let req : PrRequest := ⟨mkPrTitle issue, mkPrBody issue⟩
    match pr with
    | .created url =>
        ({ success := true, message := "Pull request created: " ++ url }, some req)
    | .failed err =>
        ({ success := false, message := "Failed to create pull request: " ++ err }, some req)

/-! ## Lock manager (`src/utils/lock.ts`)

The lock file is modelled by its parse status: `absent` (no file),
`corrupt` (present but `JSON.parse` fails), or `valid info`.  Process
liveness (`process.kill(pid, 0)`) and the caller's identity are supplied by
a `LockEnv`. -/

/-- Record `LockInfo` from `src/utils/lock.ts`. -/
structure LockInfo where
  pid : Nat
  startedAt : String
  issueId : String
  command : String
deriving DecidableEq, Repr

/-- The lock file's on-disk state, by parse status. -/
inductive LockFile where
  | absent
  | corrupt
  | valid (info : LockInfo)
deriving DecidableEq, Repr

/-- Ambient facts the lock manager consults: `isProcessRunning` (the
signal-0 probe), the caller's `process.pid`, and `new Date().toISOString()`. -/
structure LockEnv where
  alive : Nat → Bool
  selfPid : Nat
  now : String

/-- Function `isLockStale` from `src/utils/lock.ts`, on the content of an existing
lock file: a parse failure or a dead recorded PID makes the lock stale. -/
def isLockStale (env : LockEnv) : LockFile → Bool
  | .absent => true
  | .corrupt => true
  | .valid info => !env.alive info.pid

/-- Function `readLockInfo` from `src/utils/lock.ts`: `undefined` when the file is
absent or does not parse. -/
def readLockInfo : LockFile → Option LockInfo
  | .absent => none
  | .corrupt => none
  | .valid info => some info

/-- Result of `acquireLock`. -/
structure AcquireResult where
  acquired : Bool
  existingLock : Option LockInfo := none
deriving DecidableEq, Repr

/-- Function `acquireLock` from `src/utils/lock.ts`, as a transition on the lock-file
state: returns the result and the lock file's state afterwards. -/
def acquireLock (env : LockEnv) (st : LockFile) (issueId command : String) :
    AcquireResult × LockFile :=
  let newInfo : LockInfo :=
    { pid := env.selfPid, startedAt := env.now, issueId := issueId, command := command }
  match st with
  | .absent => ({ acquired := true }, .valid newInfo)
  | st =>
      if isLockStale env st then
        ({ acquired := true }, .valid newInfo)
      else
        ({ acquired := false, existingLock := readLockInfo st }, st)

/-- Function `releaseLock` from `src/utils/lock.ts`, as a transition on the lock-file
state: the file is deleted only when it parses and its recorded PID equals
the caller's own. -/
def releaseLock (env : LockEnv) (st : LockFile) : LockFile :=
  match st with
  | .absent => .absent
  | st =>
      match readLockInfo st with
      | some info => if info.pid == env.selfPid then .absent else st
      | none => st

/-! ## Session store (`src/utils/session.ts`)

The session file is modelled as `Option String`: `none` when the file does
not exist, `some content` otherwise. -/

/-- Function `saveSessionId` from `src/utils/session.ts`: writes the id verbatim. -/
def saveSessionId (_fs : Option String) (sessionId : String) : Option String :=
  some sessionId

/-- JS `s.trim()`: strip leading and trailing whitespace (modelled over the
ASCII whitespace characters). -/
def jsTrim (s : String) : String :=
  String.mk (((s.data.dropWhile jsWhitespace).reverse.dropWhile jsWhitespace).reverse)

/-- Function `loadSessionId` from `src/utils/session.ts`: trims the file content and
maps an empty result to absent (`sessionId || undefined`). -/
def loadSessionId (fs : Option String) : Option String :=
  match fs with
  | none => none
  | some content =>
      let sessionId := jsTrim content
      if sessionId = "" then none else some sessionId

/-- Function `clearSessionId` from `src/utils/session.ts`: when the file exists it is
overwritten with the empty string (not deleted). -/
def clearSessionId (fs : Option String) : Option String :=
  match fs with
  | none => none
  | some _ => some ""

/-! ## Naming helpers (`src/utils/config.ts`) -/

/-- Function `issueToBranchName` from `src/utils/config.ts`. -/
def issueToBranchName (issueId : String) : String :=
  "ralph-" ++ issueId

/-- Function `issueToWorktreeName` from `src/utils/config.ts`. -/
def issueToWorktreeName (issueId : String) : String :=
  toLowerString issueId

/-- Helper for `collapseWhitespaceRuns`: `prevWs` records whether the
previous character was whitespace (so further whitespace of the same run is
dropped rather than emitting another `_`). -/
def collapseWsAux : Bool → List Char → List Char
  | _, [] => []
  | prevWs, c :: cs =>
      if jsWhitespace c then
        if prevWs then collapseWsAux true cs else '_' :: collapseWsAux true cs
      else c :: collapseWsAux false cs

/-- Model of `.replace(/\s+/g, "_")`: each maximal whitespace run becomes one `_`. -/
def collapseWhitespaceRuns (l : List Char) : List Char :=
  collapseWsAux false l

/-- Function `issueToTopicName` from `src/utils/config.ts`: lower-case, strip
characters outside `[a-z0-9\s]`, turn whitespace runs into `_`, truncate to
50 characters. -/
def issueToTopicName (issueTitle : String) : String :=
  let lowered := (toLowerString issueTitle).data
  let stripped := lowered.filter (fun c =>
    ('a' ≤ c && c ≤ 'z') || ('0' ≤ c && c ≤ '9') || jsWhitespace c)
  String.mk ((collapseWhitespaceRuns stripped).take 50)

/-! ## Placeholder substitution (`src/utils/config.ts`)

`substituteVariables` chains three JS global regex replaces over literal
patterns.  `replaceAllL` models one such replace on character lists: scan
left to right, replace each non-overlapping occurrence of `pat`, and do not
rescan the inserted replacement.  (JS `$`-escape sequences in the
replacement string are not modelled; the theorems below only involve
replacements in which they behave literally.) -/

/-- Fuel-driven scanner for one global literal replace.  `fuel` only forces
structural termination; whenever `s.length ≤ fuel` the result is the usual
left-to-right scan that replaces each non-overlapping occurrence of `pat`. -/
def replaceAllGo (pat rep : List Char) : Nat → List Char → List Char
  | 0, s => s
  | fuel + 1, s =>
      match s with
      | [] => []
      | c :: cs =>
          if 0 < pat.length && pat.isPrefixOf (c :: cs) then
            rep ++ replaceAllGo pat rep fuel ((c :: cs).drop pat.length)
          else c :: replaceAllGo pat rep fuel cs

/-- One global literal replace (`template.replace(/pat/g, rep)`), scanning
left to right without rescanning the replacement. -/
def replaceAllL (pat rep s : List Char) : List Char :=
  replaceAllGo pat rep s.length s

/-- Function `substituteVariables` from `src/utils/config.ts`: replaces
`${issue.id}`, then `${issue.title}`, then `${issue.description}`,
globally, in that order. -/
def substituteVariables (template : String) (issue : Issue) : String :=
  String.mk
    (replaceAllL "${issue.description}".data issue.description.data
      (replaceAllL "${issue.title}".data issue.title.data
        (replaceAllL "${issue.id}".data issue.id.data template.data)))

/-! ## Research stage executor (`src/commands/research.ts`)

`research` loops `attempt = 0 .. MAX_RETRIES`, invoking the agent once per
iteration (`runResearchStep`) and then checking for the artifact file.  The
external effects are supplied as oracles: `runStep n` is the result of the
`n`-th `runResearchStep` call, and `fileCheck n` is what the
`<id>_*.md` glob found right after it.  The returned `Nat` counts the
agent invocations made. -/

/-- Constant `MAX_RETRIES` from `src/commands/research.ts`. -/
def MAX_RETRIES : Nat := 1

/-- The retry loop of `research`: `fuel` is the number of remaining loop
iterations (`MAX_RETRIES + 1` at entry), `attempt` the current index and
`count` the number of agent invocations so far. -/
def researchGo (runStep : Nat → StepResult) (fileCheck : Nat → Option String)
    (failMsg : String) : Nat → Nat → Nat → StepResult × Nat
  | _, 0, count => ({ success := false, message := failMsg }, count)
  | attempt, fuel + 1, count =>
      let r := runStep attempt
      let count := count + 1
      if r.success then
        match fileCheck attempt with
        | some f =>
            ({ success := true, message := "Research completed successfully",
               outputFile := some f }, count)
        | none => researchGo runStep fileCheck failMsg (attempt + 1) fuel count
      else researchGo runStep fileCheck failMsg (attempt + 1) fuel count

/-- The `research` stage executor (`src/commands/research.ts`). -/
def research (issue : Issue) (runStep : Nat → StepResult)
    (fileCheck : Nat → Option String) : StepResult × Nat :=
  let topicName := issueToTopicName issue.title
  let expectedFile := "_thoughts/research/" ++ issue.id ++ "_" ++ topicName ++ ".md"
  researchGo runStep fileCheck
    ("Research failed after " ++ toString (MAX_RETRIES + 1) ++
     " attempts. Expected file: " ++ expectedFile)
    0 (MAX_RETRIES + 1) 0

/-! ## Workflow orchestrator (`src/commands/run.ts`)

`runWorkflow` sequences Spawn, Research, the Plan↔Validate loop, the
Implement↔Review loop along with Publish.  Stage behaviours are supplied as
oracles indexed by invocation count; the `Trace` records how many times
each looped stage was invoked.  The two `while` loops are modelled by
structural recursion on `fuel`, maintained equal to
`MAX_*_ATTEMPTS - attempts`, so `fuel = 0` is exactly the loop guard
`attempts < MAX` failing. -/

/-- Record `WorkflowContext` from `src/types.ts` (control-flow fields). -/
structure WorkflowContext where
  sessionId : Option String := none
  planValidationAttempts : Nat
  codeReviewAttempts : Nat
deriving DecidableEq, Repr

/-- Invocation counts of the looped stages during a workflow run. -/
structure Trace where
  planCalls : Nat := 0
  validateCalls : Nat := 0
  implementCalls : Nat := 0
  reviewCalls : Nat := 0
deriving DecidableEq, Repr

/-- The external behaviour of each stage, indexed by how many invocations
of that stage happened before. -/
structure StageOracles where
  spawn : StepResult × Option WorkflowContext
  research : StepResult
  plan : Nat → StepResult
  validate : Nat → ValidateResult
  implement : Nat → Option String → StepResult
  review : Nat → ReviewResult
  getReviewFeedback : String → Option String
  publish : StepResult

/-- Constant `MAX_VALIDATION_ATTEMPTS` from `src/commands/run.ts`. -/
def MAX_VALIDATION_ATTEMPTS : Nat := 4

/-- Constant `MAX_REVIEW_ATTEMPTS` from `src/commands/run.ts`. -/
def MAX_REVIEW_ATTEMPTS : Nat := 4

/-- The Plan↔Validate `while` loop of `runWorkflow`.  Returns
`some result` on an early `return` inside the loop, `none` when the loop
exits (plan validated, or the guard fails). -/
def planValidateLoop (oc : StageOracles) :
    Nat → WorkflowContext → Trace → Option StepResult × WorkflowContext × Trace
  | 0, ctx, tr => (none, ctx, tr)
  | fuel + 1, ctx, tr =>
      let planResult := oc.plan tr.planCalls
      let tr := { tr with planCalls := tr.planCalls + 1 }
      if !planResult.success then (some planResult, ctx, tr)
      else
        let validateResult := oc.validate tr.validateCalls
        let tr := { tr with validateCalls := tr.validateCalls + 1 }
        let ctx := { ctx with planValidationAttempts := ctx.planValidationAttempts + 1 }
        if !validateResult.success then (some validateResult.toStepResult, ctx, tr)
        else if validateResult.needsChanges then
          if ctx.planValidationAttempts ≥ MAX_VALIDATION_ATTEMPTS then
            (some { success := false,
                    message := "Plan validation failed after " ++
                      toString MAX_VALIDATION_ATTEMPTS ++ " attempts" }, ctx, tr)
          else planValidateLoop oc fuel ctx tr
        else (none, ctx, tr)

/-- The Implement↔Review `while` loop of `runWorkflow`, threading the most
recent review feedback into the next Implement invocation. -/
def implementReviewLoop (oc : StageOracles) :
    Nat → WorkflowContext → Trace → Option String →
    Option StepResult × WorkflowContext × Trace
  | 0, ctx, tr, _ => (none, ctx, tr)
  | fuel + 1, ctx, tr, reviewFeedback =>
      let implementResult := oc.implement tr.implementCalls reviewFeedback
      let tr := { tr with implementCalls := tr.implementCalls + 1 }
      if !implementResult.success then (some implementResult, ctx, tr)
      else
        let ctx := match implementResult.sessionId with
          | some sid => { ctx with sessionId := some sid }
          | none => ctx
        let reviewResult := oc.review tr.reviewCalls
        let tr := { tr with reviewCalls := tr.reviewCalls + 1 }
        let ctx := { ctx with codeReviewAttempts := ctx.codeReviewAttempts + 1 }
        if !reviewResult.success then (some reviewResult.toStepResult, ctx, tr)
        else if reviewResult.needsChanges then
          let reviewFeedback := match reviewResult.feedbackFile with
            | some f => oc.getReviewFeedback f
            | none => reviewFeedback
          if ctx.codeReviewAttempts ≥ MAX_REVIEW_ATTEMPTS then
            (some { success := false,
                    message := "Code review failed after " ++
                      toString MAX_REVIEW_ATTEMPTS ++ " attempts" }, ctx, tr)
          else implementReviewLoop oc fuel ctx tr reviewFeedback
        else (none, ctx, tr)

/-- Function `runWorkflow` from `src/commands/run.ts`: the full pipeline, returning
the final `StepResult` and the stage-invocation trace. -/
def runWorkflow (oc : StageOracles) : StepResult × Trace :=
  let tr : Trace := {}
  let spawnResult := oc.spawn
  if !spawnResult.1.success then (spawnResult.1, tr)
  else
    match spawnResult.2 with
    | none => (spawnResult.1, tr)
    | some ctx =>
        let researchResult := oc.research
        if !researchResult.success then (researchResult, tr)
        else
          match planValidateLoop oc
              (MAX_VALIDATION_ATTEMPTS - ctx.planValidationAttempts) ctx tr with
          | (some r, _, tr) => (r, tr)
          | (none, ctx, tr) =>
              match implementReviewLoop oc
                  (MAX_REVIEW_ATTEMPTS - ctx.codeReviewAttempts) ctx tr none with
              | (some r, _, tr) => (r, tr)
              | (none, _, tr) =>
                  let publishResult := oc.publish
                  if !publishResult.success then (publishResult, tr)
                  else ({ success := true,
                          message := "Workflow completed: " ++ publishResult.message }, tr)

/-! ## Spec-side definitions

Definitions below named `spec...` transcribe a claim's own wording (not the
source), for comparison against the functions embedded above.  The `Seg`
view decomposes a template into literal chunks and placeholder tokens, to
state what substitution does to templates of a given shape. -/

/-- Transcription of C4's wording: the judge output is classified as NOT
complete when an "incomplete" or "missing" keyword appears and no
"complete" keyword overrides it. -/
def specPublishNotComplete (output : String) : Bool :=
  let lowerOutput := toLowerString output
  (jsIncludes lowerOutput "incomplete" || jsIncludes lowerOutput "missing") &&
  !jsIncludes lowerOutput "complete"

/-- Transcription of C5's wording of the Review stdout vocabulary: the seven
shared keywords plus "critical". -/
def specReviewNeedsChanges (output : String) : Bool :=
  let lowerOutput := toLowerString output
  jsIncludes lowerOutput "needs changes" ||
  jsIncludes lowerOutput "requires changes" ||
  jsIncludes lowerOutput "does not meet" ||
  jsIncludes lowerOutput "problematic" ||
  jsIncludes lowerOutput "issues found" ||
  jsIncludes lowerOutput "must be fixed" ||
  jsIncludes lowerOutput "should be revised" ||
  jsIncludes lowerOutput "critical"

/-- The three placeholder tokens recognised by `substituteVariables`. -/
inductive Ph where
  | phId
  | phTitle
  | phDesc
deriving DecidableEq, Repr

/-- The literal pattern of a placeholder. -/
def patOf : Ph → List Char
  | .phId => "${issue.id}".data
  | .phTitle => "${issue.title}".data
  | .phDesc => "${issue.description}".data

/-- The issue field a placeholder stands for. -/
def fieldOf (issue : Issue) : Ph → List Char
  | .phId => issue.id.data
  | .phTitle => issue.title.data
  | .phDesc => issue.description.data

/-- A template segment: a literal chunk or a placeholder token. -/
inductive Seg where
  | lit (s : List Char)
  | ph (p : Ph)
deriving DecidableEq, Repr

/-- The template text a segment list denotes. -/
def assembleT : List Seg → List Char
  | [] => []
  | .lit s :: rest => s ++ assembleT rest
  | .ph p :: rest => patOf p ++ assembleT rest

/-- The fully substituted text: each placeholder replaced by its field. -/
def renderT (issue : Issue) : List Seg → List Char
  | [] => []
  | .lit s :: rest => s ++ renderT issue rest
  | .ph p :: rest => fieldOf issue p ++ renderT issue rest

/-- Segment well-formedness: literal chunks contain no dollar sign (so all
dollar signs of the template belong to placeholder tokens). -/
def SegWF : Seg → Prop
  | .lit s => '$' ∉ s
  | .ph _ => True

instance : DecidablePred SegWF := fun sg =>
  match sg with
  | .lit s => inferInstanceAs (Decidable ('$' ∉ s))
  | .ph _ => inferInstanceAs (Decidable True)

/-- Substituting one placeholder inside the segment view. -/
def substSeg (p : Ph) (rep : List Char) : Seg → Seg
  | .ph q => if q = p then .lit rep else .ph q
  | .lit s => .lit s

/-- A concrete oracle for the loop-exhaustion scenario: every stage
succeeds and Validate always reports `needsChanges`. -/
def c1Oracle : StageOracles where
  spawn := ({ success := true, message := "spawned" },
            some { sessionId := none, planValidationAttempts := 0, codeReviewAttempts := 0 })
  research := { success := true, message := "researched" }
  plan := fun _ => { success := true, message := "planned" }
  validate := fun _ => { success := true, needsChanges := true, message := "plan needs changes" }
  implement := fun _ _ => { success := false, message := "unused" }
  review := fun _ => { success := false, needsChanges := false, message := "unused" }
  getReviewFeedback := fun _ => none
  publish := { success := false, message := "unused" }

/-! ## Helper lemmas -/

/-- Lowering a character twice is the same as lowering it once. -/
theorem char_toLower_idem (c : Char) : c.toLower.toLower = c.toLower := by
  by_cases h : c.toNat ≥ 65 ∧ c.toNat ≤ 90
  · have h1 : c.toLower = Char.ofNat (c.toNat + 32) := by
      unfold Char.toLower
      rw [if_pos h]
    rw [h1]
    obtain ⟨ha, hb⟩ := h
    set n := c.toNat with hn
    interval_cases n <;> decide
  · have h1 : c.toLower = c := by
      unfold Char.toLower
      rw [if_neg h]
    rw [h1, h1]

/-- A list is a Boolean prefix of itself followed by anything. -/
theorem isPrefixOf_append_self (l s : List Char) : l.isPrefixOf (l ++ s) = true := by
  induction l with
  | nil => simp
  | cons c cs ih =>
      rw [show ((c :: cs) ++ s) = c :: (cs ++ s) from rfl]
      rw [show ((c :: cs).isPrefixOf (c :: (cs ++ s))) =
        ((c == c) && cs.isPrefixOf (cs ++ s)) from rfl]
      simp [ih]

/-- Unfolding of a positive Boolean prefix test into an append equation. -/
theorem isPrefixOf_imp_exists (p : List Char) :
    ∀ m, p.isPrefixOf m = true → ∃ t, p ++ t = m := by
  induction p with
  | nil => exact fun m _ => ⟨m, rfl⟩
  | cons c cs ih =>
      intro m h
      cases m with
      | nil => simp [List.isPrefixOf] at h
      | cons d ds =>
          rw [show ((c :: cs).isPrefixOf (d :: ds)) = ((c == d) && cs.isPrefixOf ds) from rfl] at h
          rcases (Bool.and_eq_true _ _).mp h with ⟨hcd, hrest⟩
          obtain ⟨t, ht⟩ := ih ds hrest
          exact ⟨t, by rw [List.cons_append, ht, beq_iff_eq.mp hcd]⟩

/-- Membership transfers along list-infix containment. -/
theorem mem_of_contained {a : Char} {l₁ l₂ : List Char} (hx : a ∈ l₁)
    (h : l₁ <:+: l₂) : a ∈ l₂ := by
  obtain ⟨u, v, huv⟩ := h
  rw [← huv]
  exact List.mem_append.mpr (Or.inl (List.mem_append.mpr (Or.inr hx)))

/-- The fuel of `replaceAllGo` is irrelevant once it covers the input
length. -/
theorem replaceAllGo_fuel (pat rep : List Char) :
    ∀ fuel₁ fuel₂ s, s.length ≤ fuel₁ → s.length ≤ fuel₂ →
      replaceAllGo pat rep fuel₁ s = replaceAllGo pat rep fuel₂ s := by
  intro fuel₁
  induction fuel₁ with
  | zero =>
      intro fuel₂ s h1 _
      have hs : s = [] := List.length_eq_zero.mp (Nat.le_zero.mp h1)
      subst hs
      cases fuel₂ <;> rfl
  | succ f ih =>
      intro fuel₂ s h1 h2
      cases s with
      | nil => cases fuel₂ <;> rfl
      | cons c cs =>
          cases fuel₂ with
          | zero => simp at h2
          | succ f₂ =>
              simp only [replaceAllGo]
              by_cases hc : (decide (0 < pat.length) && pat.isPrefixOf (c :: cs)) = true
              · rw [if_pos hc, if_pos hc]
                have hlen : 0 < pat.length := by
                  have := (Bool.and_eq_true _ _).mp hc
                  exact of_decide_eq_true this.1
                congr 1
                apply ih
                · simp only [List.length_drop, List.length_cons] at *
                  omega
                · simp only [List.length_drop, List.length_cons] at *
                  omega
              · rw [if_neg hc, if_neg hc]
                congr 1
                apply ih
                · simp only [List.length_cons] at h1; omega
                · simp only [List.length_cons] at h2; omega

/-- The scan walks over a character that cannot start a match. -/
theorem replaceAllL_cons_of_ne (pat rep pt : List Char) (hpat : pat = '$' :: pt)
    (c : Char) (hc : c ≠ '$') (s : List Char) :
    replaceAllL pat rep (c :: s) = c :: replaceAllL pat rep s := by
  unfold replaceAllL
  show replaceAllGo pat rep (s.length + 1) (c :: s) = _
  simp only [replaceAllGo]
  rw [if_neg]
  subst hpat
  intro h
  rcases (Bool.and_eq_true _ _).mp h with ⟨_, hpre⟩
  rw [show (('$' :: pt).isPrefixOf (c :: s)) = (('$' == c) && pt.isPrefixOf s) from rfl] at hpre
  rcases (Bool.and_eq_true _ _).mp hpre with ⟨hbeq, _⟩
  exact hc (beq_iff_eq.mp hbeq).symm

/-- The scan walks over a dollar-free chunk unchanged. -/
theorem replaceAllL_chunk (pat rep pt : List Char) (hpat : pat = '$' :: pt)
    (x : List Char) (hx : '$' ∉ x) (s : List Char) :
    replaceAllL pat rep (x ++ s) = x ++ replaceAllL pat rep s := by
  induction x with
  | nil => simp
  | cons c cs ih =>
      have hc : c ≠ '$' := fun h => hx (by simp [h])
      have hcs : '$' ∉ cs := fun h => hx (List.mem_cons_of_mem _ h)
      simp only [List.cons_append]
      rw [replaceAllL_cons_of_ne pat rep pt hpat c hc, ih hcs]

/-- The scan replaces a pattern occurrence and continues after it. -/
theorem replaceAllL_match (pat rep : List Char) (hpat : pat ≠ []) (s : List Char) :
    replaceAllL pat rep (pat ++ s) = rep ++ replaceAllL pat rep s := by
  obtain ⟨p, pt, rfl⟩ : ∃ p pt, pat = p :: pt := by
    cases pat with
    | nil => exact absurd rfl hpat
    | cons p pt => exact ⟨p, pt, rfl⟩
  show replaceAllGo (p :: pt) rep ((p :: pt) ++ s).length (p :: (pt ++ s)) = _
  have hlen : ((p :: pt) ++ s).length = (pt.length + s.length) + 1 := by
    simp [Nat.add_comm, Nat.add_assoc, Nat.add_left_comm]
  rw [hlen]
  simp only [replaceAllGo]
  rw [if_pos]
  · have hdrop : ((p :: (pt ++ s)).drop (p :: pt).length) = s := by
      show (((p :: pt) ++ s).drop (p :: pt).length) = s
      exact List.drop_left _ _
    rw [hdrop]
    congr 1
    apply replaceAllGo_fuel
    · simp
    · exact Nat.le_refl _
  · refine (Bool.and_eq_true _ _).mpr ⟨by simp, ?_⟩
    rw [show (p :: (pt ++ s)) = ((p :: pt) ++ s) from rfl]
    exact isPrefixOf_append_self _ _

/-- The scan walks over a non-matching placeholder token unchanged. -/
theorem replaceAllL_other (pat rep pt : List Char) (hpat : pat = '$' :: pt)
    (q qt : List Char) (hq : q = '$' :: qt) (hqt : '$' ∉ qt) (s : List Char)
    (hno : pat.isPrefixOf (q ++ s) = false) :
    replaceAllL pat rep (q ++ s) = q ++ replaceAllL pat rep s := by
  subst hq
  show replaceAllGo pat rep ('$' :: (qt ++ s)).length ('$' :: (qt ++ s)) = _
  simp only [List.length_cons, replaceAllGo]
  rw [if_neg]
  · have : replaceAllGo pat rep (qt ++ s).length (qt ++ s) =
        replaceAllL pat rep (qt ++ s) := rfl
    rw [this, replaceAllL_chunk pat rep pt hpat qt hqt s]
    simp
  · simp only [Bool.and_eq_true, not_and]
    intro _
    simp only [List.cons_append] at hno
    simp [hno]

/-- A mismatch within the first `k` characters refutes the prefix test,
whatever follows. -/
theorem isPrefixOf_append_false (p q l : List Char) (k : Nat)
    (hkp : k ≤ p.length) (hkq : k ≤ q.length) (hne : p.take k ≠ q.take k) :
    p.isPrefixOf (q ++ l) = false := by
  rw [Bool.eq_false_iff]
  intro h
  obtain ⟨t, ht⟩ := isPrefixOf_imp_exists p (q ++ l) h
  apply hne
  have h1 : (p ++ t).take k = p.take k := List.take_append_of_le_length hkp
  have h2 : (q ++ l).take k = q.take k := List.take_append_of_le_length hkq
  rw [← h1, ht, h2]

/-- No placeholder pattern can match at the start of a different
placeholder token (they disagree within their first nine characters). -/
theorem patOf_isPrefixOf_false (p q : Ph) (hpq : p ≠ q) (l : List Char) :
    (patOf p).isPrefixOf (patOf q ++ l) = false := by
  apply isPrefixOf_append_false _ _ _ 9
  · cases p <;> decide
  · cases q <;> decide
  · cases p <;> cases q <;> first | exact absurd rfl hpq | decide

/-- Every placeholder pattern is a dollar sign followed by a dollar-free
tail. -/
theorem patOf_shape (p : Ph) : ∃ pt, patOf p = '$' :: pt ∧ '$' ∉ pt := by
  cases p <;> exact ⟨_, rfl, by decide⟩

/-- Substitution with a dollar-free replacement preserves segment
well-formedness. -/
theorem substSeg_wf (p : Ph) (rep : List Char) (hrep : '$' ∉ rep) (sg : Seg)
    (h : SegWF sg) : SegWF (substSeg p rep sg) := by
  cases sg with
  | lit s => exact h
  | ph q =>
      by_cases hq : q = p <;> simp [substSeg, hq, SegWF]
      exact hrep

/-- One global replace over an assembled template substitutes exactly the
occurrences of that placeholder. -/
theorem replaceAll_pass (p : Ph) (rep : List Char)
    (segs : List Seg) (hwf : ∀ sg ∈ segs, SegWF sg) :
    replaceAllL (patOf p) rep (assembleT segs) =
      assembleT (segs.map (substSeg p rep)) := by
  obtain ⟨pt, hpat, hpt⟩ := patOf_shape p
  induction segs with
  | nil => rfl
  | cons sg rest ih =>
      have hwfr : ∀ x ∈ rest, SegWF x := fun x hx => hwf x (List.mem_cons_of_mem _ hx)
      cases sg with
      | lit x =>
          have hx : '$' ∉ x := hwf (.lit x) (List.mem_cons_self _ _)
          show replaceAllL (patOf p) rep (x ++ assembleT rest) = _
          rw [replaceAllL_chunk (patOf p) rep pt hpat x hx, ih hwfr]
          rfl
      | ph q =>
          by_cases hqp : q = p
          · subst hqp
            show replaceAllL (patOf q) rep (patOf q ++ assembleT rest) = _
            rw [replaceAllL_match (patOf q) rep (by rw [hpat]; simp) _, ih hwfr]
            simp [substSeg, assembleT]
          · obtain ⟨qt, hq, hqt⟩ := patOf_shape q
            show replaceAllL (patOf p) rep (patOf q ++ assembleT rest) = _
            rw [replaceAllL_other (patOf p) rep pt hpat (patOf q) qt hq hqt _
              (patOf_isPrefixOf_false p q (fun h => hqp h.symm) _), ih hwfr]
            simp [substSeg, hqp, assembleT]

/-- Rendered output of a well-formed template with dollar-free fields is
dollar-free. -/
theorem renderT_dollarFree (issue : Issue)
    (hid : '$' ∉ issue.id.data) (htitle : '$' ∉ issue.title.data)
    (hdesc : '$' ∉ issue.description.data) :
    ∀ segs : List Seg, (∀ sg ∈ segs, SegWF sg) → '$' ∉ renderT issue segs := by
  intro segs
  induction segs with
  | nil => intro _ h; simp [renderT] at h
  | cons sg rest ih =>
      intro hwf
      have hwfr : ∀ x ∈ rest, SegWF x := fun x hx => hwf x (List.mem_cons_of_mem _ hx)
      cases sg with
      | lit s =>
          have hs : '$' ∉ s := hwf (.lit s) (List.mem_cons_self _ _)
          intro h
          rcases List.mem_append.mp h with h | h
          · exact hs h
          · exact ih hwfr h
      | ph q =>
          intro h
          rcases List.mem_append.mp h with h | h
          · cases q with
            | phId => exact hid h
            | phTitle => exact htitle h
            | phDesc => exact hdesc h
          · exact ih hwfr h

/-- A field whose placeholder occurs in the template occurs verbatim in the
rendered output. -/
theorem fieldOf_infix_renderT (issue : Issue) (p : Ph) :
    ∀ segs : List Seg, Seg.ph p ∈ segs → fieldOf issue p <:+: renderT issue segs := by
  intro segs
  induction segs with
  | nil => intro h; simp at h
  | cons sg rest ih =>
      intro h
      rcases List.mem_cons.mp h with h | h
      · rw [← h]
        exact ⟨[], renderT issue rest, by simp [renderT]⟩
      · obtain ⟨u, v, huv⟩ := ih h
        cases sg with
        | lit s => exact ⟨s ++ u, v, by simp only [renderT, ← huv, List.append_assoc]⟩
        | ph q => exact ⟨fieldOf issue q ++ u, v, by simp only [renderT, ← huv, List.append_assoc]⟩

/-- Performing the three substitution passes in the segment view yields the
rendered template. -/
theorem assembleT_subst_all (issue : Issue) (segs : List Seg) :
    assembleT (((segs.map (substSeg .phId issue.id.data)).map
        (substSeg .phTitle issue.title.data)).map
        (substSeg .phDesc issue.description.data)) =
      renderT issue segs := by
  induction segs with
  | nil => rfl
  | cons sg rest ih =>
      cases sg with
      | lit s => simpa [assembleT, renderT, substSeg] using ih
      | ph q => cases q <;> simpa [assembleT, renderT, substSeg, fieldOf] using ih

/-! ## Claim theorems -/

/-- Claim C1 (confirmed): in the full-pipeline run, if Validate reports
`needsChanges` on every cycle (while Spawn, Research, Plan and the Validate
process itself succeed), the Orchestrator performs exactly 4 Plan and
4 Validate invocations, never invokes Implement (nor Review), and
terminates with `success = false` and the message
"Plan validation failed after 4 attempts". -/
theorem workflow_validation_exhaustion (oc : StageOracles) (sr : StepResult)
    (ctx0 : WorkflowContext)
    (hspawn : oc.spawn = (sr, some ctx0)) (hsr : sr.success = true)
    (hctx : ctx0.planValidationAttempts = 0)
    (hres : oc.research.success = true)
    (hplan : ∀ n, (oc.plan n).success = true)
    (hval : ∀ n, (oc.validate n).success = true ∧ (oc.validate n).needsChanges = true) :
    runWorkflow oc =
      ({ success := false, message := "Plan validation failed after 4 attempts" },
       { planCalls := 4, validateCalls := 4, implementCalls := 0, reviewCalls := 0 }) := by
  simp [runWorkflow, planValidateLoop, hspawn, hsr, hctx, hres,
    hplan 0, hplan 1, hplan 2, hplan 3,
    (hval 0).1, (hval 0).2, (hval 1).1, (hval 1).2,
    (hval 2).1, (hval 2).2, (hval 3).1, (hval 3).2,
    MAX_VALIDATION_ATTEMPTS]
  rfl

/-- Witness for C1: the concrete always-needs-changes oracle exhausts the
Plan/Validate loop exactly as the theorem states. -/
theorem workflow_validation_exhaustion_witness :
    runWorkflow c1Oracle =
      ({ success := false, message := "Plan validation failed after 4 attempts" },
       { planCalls := 4, validateCalls := 4, implementCalls := 0, reviewCalls := 0 }) :=
  workflow_validation_exhaustion c1Oracle
    { success := true, message := "spawned" }
    { sessionId := none, planValidationAttempts := 0, codeReviewAttempts := 0 }
    rfl rfl rfl rfl (fun _ => rfl) (fun _ => ⟨rfl, rfl⟩)

/-- Counterexample to C2: the Validate stage returns `success = true` for a
judge process that exited with code 1, because its stdout matched the
needs-changes vocabulary — so process exit 0 is not required for
`success`. -/
theorem validate_success_cex :
    (validate ⟨1, "needs changes", ""⟩).success = true ∧
    (1 : Int) ≠ 0 := by decide

/-- Claim C2 as amended: the Validate stage returns `success = true` iff the
judge process exited 0 or the needs-changes keyword classification over its
stdout is positive; `needsChanges` is exactly that keyword classification,
independent of the exit code. -/
theorem validate_spec (r : ProcessResult) :
    ((validate r).success = true ↔ (r.exitCode = 0 ∨ checkIfNeedsChanges r.stdout = true)) ∧
    (validate r).needsChanges = checkIfNeedsChanges r.stdout := by
  have hsucc : (ProcessResult.success r = true) ↔ r.exitCode = 0 := by
    simp [ProcessResult.success]
  by_cases hn : checkIfNeedsChanges r.stdout = true
  · simp [validate, hn]
  · by_cases hs : ProcessResult.success r = true
    · simp [validate, hn, hs, hsucc.mp hs]
    · simp only [Bool.not_eq_true] at hn hs
      simp [validate, hn, hs]
      rw [← hsucc]
      simp [hs]

/-- Claim C3 (confirmed): with a live recorded PID, acquisition fails and
surfaces the stored lock unchanged, leaving the file untouched; with a dead
PID or a corrupt file, the stale lock is removed and acquisition succeeds,
writing a lock carrying the caller's own pid and the new issue id. -/
theorem acquireLock_spec (env : LockEnv) (st : LockFile) (issueId command : String) :
    (∀ info, st = .valid info → env.alive info.pid = true →
        acquireLock env st issueId command =
          ({ acquired := false, existingLock := some info }, st)) ∧
    (∀ info, st = .valid info → env.alive info.pid = false →
        acquireLock env st issueId command =
          ({ acquired := true }, .valid ⟨env.selfPid, env.now, issueId, command⟩)) ∧
    (st = .corrupt →
        acquireLock env st issueId command =
          ({ acquired := true }, .valid ⟨env.selfPid, env.now, issueId, command⟩)) := by
  refine ⟨fun info h ha => ?_, fun info h ha => ?_, fun h => ?_⟩
  · subst h; simp [acquireLock, isLockStale, readLockInfo, ha]
  · subst h; simp [acquireLock, isLockStale, readLockInfo, ha]
  · subst h; simp [acquireLock, isLockStale, readLockInfo]

/-- Witness for C3 at concrete lock states: a live lock blocks acquisition
unchanged; a dead-PID lock and a corrupt lock are reclaimed with the new
caller's pid and issue id. -/
theorem acquireLock_spec_witness :
    acquireLock ⟨fun _ => true, 7, "now"⟩ (.valid ⟨3, "t0", "OLD", "run"⟩) "NEW" "run"
      = ({ acquired := false, existingLock := some ⟨3, "t0", "OLD", "run"⟩ },
         .valid ⟨3, "t0", "OLD", "run"⟩) ∧
    acquireLock ⟨fun _ => false, 7, "now"⟩ (.valid ⟨3, "t0", "OLD", "run"⟩) "NEW" "run"
      = ({ acquired := true }, .valid ⟨7, "now", "NEW", "run"⟩) ∧
    acquireLock ⟨fun _ => false, 7, "now"⟩ .corrupt "NEW" "run"
      = ({ acquired := true }, .valid ⟨7, "now", "NEW", "run"⟩) :=
  ⟨(acquireLock_spec _ _ _ _).1 _ rfl rfl,
   (acquireLock_spec _ _ _ _).2.1 _ rfl rfl,
   (acquireLock_spec _ _ _ _).2.2 rfl⟩

/-- Counterexample to C4: on output "missing ready for pr" the code
classifies the implementation as complete (because "ready for pr" is also an
override), while the claim's classifier — not complete when "incomplete" or
"missing" appears and no "complete" keyword overrides — says not
complete. -/
theorem checkImplementationComplete_cex :
    checkImplementationComplete "missing ready for pr" = true ∧
    specPublishNotComplete "missing ready for pr" = true := by decide

/-- Claim C4 as amended: the classifier is default-true and yields NOT
complete exactly when "incomplete" or "missing" appears and none of the four
override keywords ("complete", "all items implemented", "ready for pr",
"meets quality bar") appears; a pull request is constructed only when `gh`
exists, the judge process succeeded and the output classified complete, and
then its title/body are built from the issue's id, title and description. -/
theorem publish_completeness_spec (issue : Issue) (ghExists : Bool)
    (r : ProcessResult) (pr : PrOutcome) :
    (checkImplementationComplete r.stdout = false ↔
      ((jsIncludes (toLowerString r.stdout) "incomplete" = true ∨
        jsIncludes (toLowerString r.stdout) "missing" = true) ∧
       jsIncludes (toLowerString r.stdout) "complete" = false ∧
       jsIncludes (toLowerString r.stdout) "all items implemented" = false ∧
       jsIncludes (toLowerString r.stdout) "ready for pr" = false ∧
       jsIncludes (toLowerString r.stdout) "meets quality bar" = false)) ∧
    (∀ req : PrRequest, (publish issue ghExists r pr).2 = some req →
       ghExists = true ∧ r.success = true ∧
       checkImplementationComplete r.stdout = true ∧
       req.title = "[" ++ issue.id ++ "] " ++ issue.title ∧
       req.body = "## Issue\n\n**ID:** " ++ issue.id ++ "\n**Title:** " ++ issue.title ++
         "\n\n## Description\n\n" ++ issue.description ++
         "\n\n---\n*Automated PR created by Ralph*") := by
  constructor
  · cases hA : jsIncludes (toLowerString r.stdout) "complete" <;>
    cases hB : jsIncludes (toLowerString r.stdout) "all items implemented" <;>
    cases hC : jsIncludes (toLowerString r.stdout) "ready for pr" <;>
    cases hD : jsIncludes (toLowerString r.stdout) "meets quality bar" <;>
    cases hE : jsIncludes (toLowerString r.stdout) "incomplete" <;>
    cases hF : jsIncludes (toLowerString r.stdout) "missing" <;>
      simp [checkImplementationComplete, hA, hB, hC, hD, hE, hF]
  · intro req h
    by_cases hg : ghExists = true
    case neg =>
      simp only [Bool.not_eq_true] at hg
      simp [publish, hg] at h
    case pos =>
      by_cases hs : r.success = true
      case neg =>
        simp only [Bool.not_eq_true] at hs
        simp [publish, hg, hs] at h
      case pos =>
        by_cases hc : checkImplementationComplete r.stdout = true
        case neg =>
          simp only [Bool.not_eq_true] at hc
          simp [publish, hg, hs, hc] at h
        case pos =>
          cases pr with
          | created url =>
              simp [publish, hg, hs, hc] at h
              exact ⟨hg, hs, hc, by rw [← h]; rfl, by rw [← h]; rfl⟩
          | failed err =>
              simp [publish, hg, hs, hc] at h
              exact ⟨hg, hs, hc, by rw [← h]; rfl, by rw [← h]; rfl⟩

/-- Witness for C4: a complete judge output leads to a pull request built
from the issue's fields. -/
theorem publish_completeness_spec_witness :
    (publish ⟨"I1", "T", "D"⟩ true ⟨0, "complete", ""⟩ (.created "u")).2 =
      some ⟨"[I1] T",
        "## Issue\n\n**ID:** I1\n**Title:** T\n\n## Description\n\nD\n\n---\n*Automated PR created by Ralph*"⟩ ∧
    checkImplementationComplete "complete" = true :=
  ⟨rfl,
   ((publish_completeness_spec ⟨"I1", "T", "D"⟩ true ⟨0, "complete", ""⟩ (.created "u")).2
      ⟨"[I1] T",
        "## Issue\n\n**ID:** I1\n**Title:** T\n\n## Description\n\nD\n\n---\n*Automated PR created by Ralph*"⟩
      rfl).2.2.1⟩

/-- Counterexample to C5: Review's stdout vocabulary lacks "problematic"
(and "should be revised"), so stdout containing "problematic" — in the
claim's shared vocabulary — yields `needsChanges = false` in Review (with no
feedback file), while the claim says it must yield true. -/
theorem review_vocabulary_cex :
    specReviewNeedsChanges "the approach is problematic" = true ∧
    checkIfNeedsCodeChanges "the approach is problematic" none = false := by decide

/-- Claim C5 as amended: Validate's `needsChanges` is exactly a match of its
seven-keyword stdout vocabulary; Review's stdout vocabulary is `needs
changes`, `requires changes`, `does not meet`, `critical`, `must be fixed`,
`issues found` (no `problematic`, no `should be revised`), and Review's
`needsChanges` is a stdout match or a feedback-file match against
`critical` / `must fix` / `blocking` / `needs changes` — in both stages
independent of the exit code. -/
theorem needsChanges_classification (s : String) (fb : Option String) :
    (checkIfNeedsChanges s = true ↔
      (jsIncludes (toLowerString s) "needs changes" = true ∨
       jsIncludes (toLowerString s) "requires changes" = true ∨
       jsIncludes (toLowerString s) "does not meet" = true ∨
       jsIncludes (toLowerString s) "problematic" = true ∨
       jsIncludes (toLowerString s) "issues found" = true ∨
       jsIncludes (toLowerString s) "must be fixed" = true ∨
       jsIncludes (toLowerString s) "should be revised" = true)) ∧
    (checkIfNeedsCodeChanges s fb = true ↔
      ((jsIncludes (toLowerString s) "needs changes" = true ∨
        jsIncludes (toLowerString s) "requires changes" = true ∨
        jsIncludes (toLowerString s) "does not meet" = true ∨
        jsIncludes (toLowerString s) "critical" = true ∨
        jsIncludes (toLowerString s) "must be fixed" = true ∨
        jsIncludes (toLowerString s) "issues found" = true) ∨
       (∃ c, fb = some c ∧
         (jsIncludes (toLowerString c) "critical" = true ∨
          jsIncludes (toLowerString c) "must fix" = true ∨
          jsIncludes (toLowerString c) "blocking" = true ∨
          jsIncludes (toLowerString c) "needs changes" = true)))) := by
  constructor
  · simp [checkIfNeedsChanges, Bool.or_eq_true, or_assoc]
  · unfold checkIfNeedsCodeChanges
    have hite : ∀ b x : Bool, (if b = true then true else x) = (b || x) := by decide
    cases fb with
    | none =>
        simp only []
        rw [hite]
        simp [Bool.or_eq_true, or_assoc]
    | some c =>
        simp only []
        rw [hite]
        simp [Bool.or_eq_true, or_assoc]

/-- Claim C6 (confirmed): release deletes the lock file only when its
recorded pid equals the caller's own; whenever the recorded pid differs,
the lock file is left unchanged. -/
theorem releaseLock_ownership (env : LockEnv) :
    (∀ info : LockInfo, info.pid ≠ env.selfPid →
        releaseLock env (.valid info) = .valid info) ∧
    (∀ st : LockFile, st ≠ .absent → releaseLock env st = .absent →
        ∃ info, st = .valid info ∧ info.pid = env.selfPid) := by
  constructor
  · intro info h
    simp [releaseLock, readLockInfo, h]
  · intro st hne hrel
    cases st with
    | absent => exact absurd rfl hne
    | corrupt => simp [releaseLock, readLockInfo] at hrel
    | valid info =>
        refine ⟨info, rfl, ?_⟩
        by_cases h : info.pid = env.selfPid
        · exact h
        · simp [releaseLock, readLockInfo, h] at hrel

/-- Witness for C6: a lock recorded by pid 2 survives a release attempted by
pid 1. -/
theorem releaseLock_ownership_witness :
    releaseLock ⟨fun _ => true, 1, "t"⟩ (.valid ⟨2, "s", "ISS-1", "run"⟩)
      = .valid ⟨2, "s", "ISS-1", "run"⟩ :=
  (releaseLock_ownership ⟨fun _ => true, 1, "t"⟩).1 ⟨2, "s", "ISS-1", "run"⟩ (by decide)

/-- Counterexample to C7: with the template holding each placeholder exactly
once and a description whose value is the literal text of the id
placeholder, the result still contains a placeholder token (the description
is substituted last and never rescanned), refuting "the result contains no
placeholder tokens" for arbitrary issues. -/
theorem substituteVariables_leftover_token_cex :
    jsIncludes
      (substituteVariables "${issue.id} ${issue.title} ${issue.description}"
        ⟨"A", "B", "${issue.id}"⟩) "${issue.id}" = true ∧
    substituteVariables "${issue.id} ${issue.title} ${issue.description}"
      ⟨"A", "B", "${issue.id}"⟩ = "A B ${issue.id}" := by decide

/-- Claim C7 as amended: for every template assembled from dollar-free
literal chunks and placeholder tokens (each token may occur any number of
times, in particular exactly once) and every issue whose field values
contain no dollar sign, substitution yields exactly the template with every
placeholder replaced by its field; consequently the result contains no
placeholder token, and each field whose placeholder occurs in the template
appears verbatim in the result — including descriptions with newlines or
brace characters. -/
theorem substituteVariables_spec (issue : Issue) (segs : List Seg)
    (hwf : ∀ sg ∈ segs, SegWF sg)
    (hid : '$' ∉ issue.id.data) (htitle : '$' ∉ issue.title.data)
    (hdesc : '$' ∉ issue.description.data) :
    (substituteVariables (String.mk (assembleT segs)) issue).data = renderT issue segs ∧
    (∀ p : Ph, ¬ patOf p <:+: (substituteVariables (String.mk (assembleT segs)) issue).data) ∧
    (∀ p : Ph, Seg.ph p ∈ segs →
      fieldOf issue p <:+: (substituteVariables (String.mk (assembleT segs)) issue).data) := by
  have hwf1 : ∀ sg ∈ segs.map (substSeg .phId issue.id.data), SegWF sg := by
    intro sg hsg
    rcases List.mem_map.mp hsg with ⟨sg0, hsg0, rfl⟩
    exact substSeg_wf _ _ hid sg0 (hwf sg0 hsg0)
  have hwf2 : ∀ sg ∈ (segs.map (substSeg .phId issue.id.data)).map
      (substSeg .phTitle issue.title.data), SegWF sg := by
    intro sg hsg
    rcases List.mem_map.mp hsg with ⟨sg0, hsg0, rfl⟩
    exact substSeg_wf _ _ htitle sg0 (hwf1 sg0 hsg0)
  have hdata : (substituteVariables (String.mk (assembleT segs)) issue).data =
      renderT issue segs := by
    show replaceAllL "${issue.description}".data issue.description.data
        (replaceAllL "${issue.title}".data issue.title.data
          (replaceAllL "${issue.id}".data issue.id.data (assembleT segs))) = _
    rw [show ("${issue.id}".data : List Char) = patOf .phId from rfl,
        show ("${issue.title}".data : List Char) = patOf .phTitle from rfl,
        show ("${issue.description}".data : List Char) = patOf .phDesc from rfl,
        replaceAll_pass .phId issue.id.data segs hwf,
        replaceAll_pass .phTitle issue.title.data _ hwf1,
        replaceAll_pass .phDesc issue.description.data _ hwf2,
        assembleT_subst_all]
  refine ⟨hdata, ?_, ?_⟩
  · intro p hinf
    rw [hdata] at hinf
    have hdollar : '$' ∈ patOf p := by cases p <;> decide
    exact renderT_dollarFree issue hid htitle hdesc segs hwf (mem_of_contained hdollar hinf)
  · intro p hp
    rw [hdata]
    exact fieldOf_infix_renderT issue p segs hp

/-- Witness for C7: a template with all three placeholders and a description
containing a newline and brace characters renders with no leftover token. -/
theorem substituteVariables_spec_witness :
    (substituteVariables
      (String.mk (assembleT [.lit "run ".data, .ph .phId, .lit " - ".data, .ph .phTitle,
        .lit ": ".data, .ph .phDesc])) ⟨"A1", "Title", "Desc\nwith \x7bbraces\x7d"⟩).data =
      renderT ⟨"A1", "Title", "Desc\nwith \x7bbraces\x7d"⟩
        [.lit "run ".data, .ph .phId, .lit " - ".data, .ph .phTitle,
         .lit ": ".data, .ph .phDesc] ∧
    ¬ patOf .phId <:+:
      (substituteVariables
        (String.mk (assembleT [.lit "run ".data, .ph .phId, .lit " - ".data, .ph .phTitle,
          .lit ": ".data, .ph .phDesc])) ⟨"A1", "Title", "Desc\nwith \x7bbraces\x7d"⟩).data :=
  ⟨(substituteVariables_spec ⟨"A1", "Title", "Desc\nwith \x7bbraces\x7d"⟩
      [.lit "run ".data, .ph .phId, .lit " - ".data, .ph .phTitle,
       .lit ": ".data, .ph .phDesc]
      (by decide) (by decide) (by decide) (by decide)).1,
   (substituteVariables_spec ⟨"A1", "Title", "Desc\nwith \x7bbraces\x7d"⟩
      [.lit "run ".data, .ph .phId, .lit " - ".data, .ph .phTitle,
       .lit ": ".data, .ph .phDesc]
      (by decide) (by decide) (by decide) (by decide)).2.1 .phId⟩

/-- Counterexample to C8: `branchName` is not idempotent — applying it twice
to "X" gives "ralph-ralph-X", not "ralph-X". -/
theorem issueToBranchName_not_idempotent :
    issueToBranchName (issueToBranchName "X") ≠ issueToBranchName "X" := by decide

/-- Claim C8 as amended: `worktreeName(id)` is `lowercase(id)` and
`branchName(id)` is `"ralph-" ++ id`; both are pure functions and
`worktreeName` is idempotent, but `branchName` is not — applying it twice
prepends the prefix twice. -/
theorem naming_spec (issueId : String) :
    issueToWorktreeName issueId = toLowerString issueId ∧
    issueToBranchName issueId = "ralph-" ++ issueId ∧
    issueToWorktreeName (issueToWorktreeName issueId) = issueToWorktreeName issueId ∧
    issueToBranchName (issueToBranchName issueId) = "ralph-ralph-" ++ issueId := by
  refine ⟨rfl, rfl, ?_, ?_⟩
  · apply String.ext
    simp [issueToWorktreeName, toLowerString, char_toLower_idem]
  · apply String.ext
    simp [issueToBranchName]

/-- Claim C9 (confirmed): a Research run whose agent process always succeeds
but whose artifact file never appears makes exactly 2 agent invocations and
fails with a message naming the expected artifact path. -/
theorem research_exhaustion (issue : Issue) (runStep : Nat → StepResult)
    (fileCheck : Nat → Option String)
    (hs : ∀ n, (runStep n).success = true) (hf : ∀ n, fileCheck n = none) :
    research issue runStep fileCheck =
      ({ success := false,
         message := "Research failed after " ++ toString (MAX_RETRIES + 1) ++
           " attempts. Expected file: " ++
           ("_thoughts/research/" ++ issue.id ++ "_" ++ issueToTopicName issue.title ++ ".md") },
       2) := by
  simp [research, researchGo, hs 0, hs 1, hf 0, hf 1, MAX_RETRIES]

/-- Witness for C9: an always-succeeding agent with no artifact for issue
"X"/"Ab C" yields two invocations and the expected-file failure message. -/
theorem research_exhaustion_witness :
    research ⟨"X", "Ab C", ""⟩ (fun _ => { success := true, message := "ok" })
      (fun _ => none) =
      ({ success := false,
         message := "Research failed after 2 attempts. Expected file: _thoughts/research/X_ab_c.md" },
       2) :=
  research_exhaustion ⟨"X", "Ab C", ""⟩ _ _ (fun _ => rfl) (fun _ => rfl)

/-- Claim C10 (confirmed): `clearSessionId` on an existing session file
overwrites it with the empty string (the file stays present), after which
`loadSessionId` returns absent; load maps any content that trims to empty to
absent, and never returns the empty string to a caller. -/
theorem session_clear_then_load_absent :
    (∀ content : String, clearSessionId (some content) = some "") ∧
    (∀ content : String, loadSessionId (clearSessionId (some content)) = none) ∧
    (∀ content : String, jsTrim content = "" → loadSessionId (some content) = none) ∧
    (∀ fs : Option String, loadSessionId fs ≠ some "") := by
  refine ⟨fun c => rfl, fun c => rfl, fun c h => by simp [loadSessionId, h], fun fs => ?_⟩
  match fs with
  | none => simp [loadSessionId]
  | some c => by_cases h : jsTrim c = "" <;> simp [loadSessionId, h]

/-- Witness for C10: clearing then loading a concrete session returns
absent, as does loading whitespace-only content. -/
theorem session_clear_then_load_absent_witness :
    loadSessionId (clearSessionId (some "sess-abc")) = none ∧
    loadSessionId (some " \t ") = none :=
  ⟨session_clear_then_load_absent.2.1 "sess-abc",
   session_clear_then_load_absent.2.2.1 " \t " (by decide)⟩

end Ralph
